import Mathlib

/-!
Shallow embedding of the `rust-png` PNG encoder (src/lib.rs, src/chunks.rs,
src/error.rs) and verification of its specification claims.

Bytes are modelled as `Nat` values; wherever the Rust code relies on `u8` /
`u32` wrap-around semantics the embedding takes the result modulo `2^8` /
`2^32` explicitly.  The output sink (`impl Write + Seek`) is modelled as a
byte list that writes append to; the external zlib compressor is an opaque
parameter `compress : List Nat → Except String (List Nat)`.
-/

namespace RustPng

/-- `ColorType` enum from src/lib.rs. -/
inductive ColorType where
  | Grayscale
  | Rgb
  | GrayscaleAlpha
  | Rgba
  | Indexed
  deriving DecidableEq, Repr

/-- `PngError` enum from src/error.rs.  The `Io` variant carries no payload
in the model (the underlying `io::Error` is opaque). -/
inductive PngError where
  | InvalidDimensions (w h : Nat)
  | Io
  | Compression (msg : String)
  | ColorTypeError
  | ComponentCountMismatch (expected actual : Nat) (color_type : ColorType)
  | PixelCountMismatch (expected actual : Nat) (dimensions : Nat × Nat)
  | InvalidPalette (msg : String)
  | InvalidPaletteEntry (idx : Nat)
  deriving DecidableEq, Repr

/-- `ColorType::png_header_code` from src/lib.rs. -/
def ColorType.png_header_code : ColorType → Nat
  | ColorType.Grayscale => 0
  | ColorType.Rgb => 2
  | ColorType.GrayscaleAlpha => 4
  | ColorType.Rgba => 6
  | ColorType.Indexed => 3

/-- `ColorType::bytes_per_pixel` from src/lib.rs. -/
def ColorType.bytes_per_pixel : ColorType → Nat
  | ColorType.Grayscale => 1
  | ColorType.Rgb => 3
  | ColorType.GrayscaleAlpha => 2
  | ColorType.Rgba => 4
  | ColorType.Indexed => 1

/-- `ColorType::validate_components` from src/lib.rs. -/
def ColorType.validate_components (c : ColorType) (components : List Nat) :
    Except PngError Unit :=
  let expected := c.bytes_per_pixel
  if components.length ≠ expected then
    Except.error (PngError.ComponentCountMismatch expected components.length c)
  else
    Except.ok ()

/-- The `PngImage` struct from src/lib.rs: width/height are `u32` values,
`data` is the pixel byte buffer, `palette` the optional palette bytes. -/
structure PngImage where
  width : Nat
  height : Nat
  data : List Nat
  color_type : ColorType
  palette : Option (List Nat)
  deriving DecidableEq, Repr

/-- `PngImage::new` from src/lib.rs: rejects zero or over-`0x7FFF`
dimensions, otherwise starts with an empty pixel buffer and no palette. -/
def PngImage.new (width height : Nat) (color_type : ColorType) :
    Except PngError PngImage :=
  if width = 0 ∨ height = 0 ∨ width > 0x7FFF ∨ height > 0x7FFF then
    Except.error (PngError.InvalidDimensions width height)
  else
    Except.ok { width := width, height := height, data := [],
                color_type := color_type, palette := none }

/-- `PngImage::add_pixel` from src/lib.rs. -/
def PngImage.add_pixel (img : PngImage) (components : List Nat) :
    Except PngError PngImage :=
  match img.color_type.validate_components components with
  | Except.error e => Except.error e
  | Except.ok _ =>
    let max_pixels := img.width * img.height
    let current_pixels := img.data.length / img.color_type.bytes_per_pixel
    if current_pixels ≥ max_pixels then
      Except.error (PngError.PixelCountMismatch max_pixels (current_pixels + 1)
        (img.width, img.height))
    else
      Except.ok { img with data := img.data ++ components }

/-- Big-endian byte serialization of a `u32` (`u32::to_be_bytes`); the value
is reduced modulo `2^32` as the Rust type would force. -/
def u32_be_bytes (n : Nat) : List Nat :=
  [n / 2 ^ 24 % 256, n / 2 ^ 16 % 256, n / 2 ^ 8 % 256, n % 256]

/-- `PngImage::generate_ihdr` from src/lib.rs: width and height big-endian,
bit depth 8, color code, compression 0, filter 0, interlace 0. -/
def PngImage.generate_ihdr (img : PngImage) : List Nat :=
  u32_be_bytes img.width ++ u32_be_bytes img.height ++
    [8, img.color_type.png_header_code, 0, 0, 0]

/-- `u8::wrapping_sub` on byte values. -/
def wrapping_sub (a b : Nat) : Nat := (a % 256 + 256 - b % 256) % 256

/-- The inner loop of `PngImage::filter_scanlines`: walk the row keeping the
`prev` per-channel array (initially all zeroes); each output byte is the
input byte minus `prev[i % bytes_per_pixel]` wrapping, and `prev` is then
updated with the *original* byte. -/
def filterRowGo (bpp : Nat) (prev : List Nat) (i : Nat) :
    List Nat → List Nat
  | [] => []
  | byte :: rest =>
    let channel := i % bpp
    let filtered_byte := wrapping_sub byte (prev.getD channel 0)
    filtered_byte :: filterRowGo bpp (prev.set channel byte) (i + 1) rest

/-- `slice::chunks_exact(n)`: the maximal list of consecutive length-`n`
chunks; a final shorter remainder is dropped.  (Rust panics on `n = 0`; the
encoder only reaches it with `n ≥ 1`, and the model returns `[]` there.) -/
def chunksExact (n : Nat) (l : List Nat) : List (List Nat) :=
  if _h : 0 < n ∧ n ≤ l.length then
    l.take n :: chunksExact n (l.drop n)
  else
    []
termination_by l.length
decreasing_by simp only [List.length_drop]; omega

/-- `PngImage::filter_scanlines` from src/lib.rs: split the pixel buffer
into rows of `width * bytes_per_pixel` bytes via `chunks_exact`, and emit
each row as a filter-type tag `1` followed by the Sub-filtered row bytes. -/
def PngImage.filter_scanlines (img : PngImage) : List Nat :=
  let bytes_per_pixel := img.color_type.bytes_per_pixel
  let row_length := img.width * bytes_per_pixel
  (chunksExact row_length img.data).flatMap fun row =>
    1 :: filterRowGo bytes_per_pixel (List.replicate bytes_per_pixel 0) 0 row

/-- `PngImage::set_palette` from src/lib.rs. -/
def PngImage.set_palette (img : PngImage) (palette : List Nat) :
    Except PngError PngImage :=
  if img.color_type ≠ ColorType.Indexed then
    Except.error PngError.ColorTypeError
  else if palette.length % 3 ≠ 0 then
    Except.error (PngError.InvalidPalette "Palette must contain RGB triplets")
  else if palette.length > 256 * 3 then
    Except.error (PngError.InvalidPalette "Palette cannot exceed 256 entries")
  else
    Except.ok { img with palette := some palette }

/-- The scan inside `PngImage::validate_palette_indices`: first stored byte
strictly greater than `max_index`, if any. -/
def findBadIndex (max_index : Nat) : List Nat → Option Nat
  | [] => none
  | index :: rest =>
    if index > max_index then some index else findBadIndex max_index rest

/-- `PngImage::validate_palette_indices` from src/lib.rs.  Note
`max_index = (palette.len() / 3).saturating_sub(1)`, which `Nat`
subtraction models exactly. -/
def PngImage.validate_palette_indices (img : PngImage) : Except PngError Unit :=
  match img.palette with
  | some palette =>
    let max_index := palette.length / 3 - 1
    match findBadIndex max_index img.data with
    | some index => Except.error (PngError.InvalidPaletteEntry index)
    | none => Except.ok ()
  | none => Except.ok ()

/-- One step of the bitwise CRC-32 feedback: shift right, conditionally
xoring in the reflected ISO-HDLC polynomial `0xEDB88320`. -/
def crc32_step (c : Nat) : Nat :=
  if c % 2 = 1 then (c / 2) ^^^ 0xEDB88320 else c / 2

/-- Absorb one byte into the CRC-32 state. -/
def crc32_update (c b : Nat) : Nat :=
  crc32_step^[8] (c ^^^ b % 256)

/-- CRC-32 (ISO-HDLC / zlib polynomial) of a byte sequence: initial state
`0xFFFFFFFF`, final xor `0xFFFFFFFF` — the checksum computed by the `crc`
crate's `CRC_32_ISO_HDLC` used in src/chunks.rs. -/
def crc32 (data : List Nat) : Nat :=
  (data.foldl crc32_update 0xFFFFFFFF) ^^^ 0xFFFFFFFF

/-- The byte sequence `ChunkWriter::write_chunk` (src/chunks.rs) emits for
one chunk: big-endian payload length (as `u32`), the 4-byte type, the
payload, and the big-endian CRC-32 of type ++ payload. -/
def ChunkWriter.chunk_bytes (chunk_type data : List Nat) : List Nat :=
  u32_be_bytes data.length ++ chunk_type ++ data ++
    u32_be_bytes (crc32 (chunk_type ++ data))

/-- `ChunkWriter::write_chunk` from src/chunks.rs: append one framed chunk
to the sink. -/
def ChunkWriter.write_chunk (sink chunk_type data : List Nat) : List Nat :=
  sink ++ ChunkWriter.chunk_bytes chunk_type data

/-- The fixed 8-byte PNG signature written by `write_to_file`. -/
def png_signature : List Nat := [137, 80, 78, 71, 13, 10, 26, 10]

/-- The emission part of `PngImage::write_to_file` (everything after the
indexed-mode preconditions): signature, IHDR, optional PLTE, compressed
IDAT, IEND.  `compress` stands for the external zlib encoder; its failure
is wrapped into `PngError.Compression` as by the `From` impl.  Returns the
final sink contents together with the error, if any. -/
def PngImage.write_body (img : PngImage)
    (compress : List Nat → Except String (List Nat)) (sink : List Nat) :
    List Nat × Option PngError :=
  let sink1 := sink ++ png_signature
  let sink2 := ChunkWriter.write_chunk sink1 [73, 72, 68, 82] img.generate_ihdr
  let sink3 := match img.palette with
    | some palette => ChunkWriter.write_chunk sink2 [80, 76, 84, 69] palette
    | none => sink2
  let filtered := img.filter_scanlines
  match compress filtered with
  | Except.error e => (sink3, some (PngError.Compression e))
  | Except.ok compressed =>
    let sink4 := ChunkWriter.write_chunk sink3 [73, 68, 65, 84] compressed
    let sink5 := ChunkWriter.write_chunk sink4 [73, 69, 78, 68] []
    (sink5, none)

/-- `PngImage::write_to_file` from src/lib.rs: for indexed mode, require a
palette and validate the stored indices before anything is written; then
emit the file via `write_body`. -/
def PngImage.write_to_file (img : PngImage)
    (compress : List Nat → Except String (List Nat)) (sink : List Nat) :
    List Nat × Option PngError :=
  if img.color_type = ColorType.Indexed then
    if img.palette.isNone then
      (sink, some (PngError.InvalidPalette "Palette required for indexed color"))
    else
      match img.validate_palette_indices with
      | Except.error e => (sink, some e)
      | Except.ok _ => img.write_body compress sink
  else
    img.write_body compress sink

/-! Spec-side definitions: these follow the specification's words (the Sub
predictor formula, its inverse, and chunk re-parsing) and are compared with
the code embedding above. -/

/-- `u8` addition with wrap-around, as the spec's "add back, mod 256". -/
def wrapping_add (a b : Nat) : Nat := (a + b) % 256

/-- The Sub predictor exactly as the spec states it: each byte of the row
replaced by itself minus the byte at the same channel offset in the
previous pixel of the same row (mod 256), with 0 standing in for every
channel of the first pixel.  Pairing the row with `replicate bpp 0 ++ row`
aligns index `j` with index `j - bpp` (or the zero padding for `j < bpp`). -/
def subRowSpec (bpp : Nat) (row : List Nat) : List Nat :=
  List.zipWith wrapping_sub row (List.replicate bpp 0 ++ row)

/-- Row `r` of a row-major pixel buffer, as the spec describes rows:
`row_length` consecutive bytes starting at offset `r * row_length`. -/
def rowAt (data : List Nat) (row_length r : Nat) : List Nat :=
  (data.drop (r * row_length)).take row_length

/-- The inverse Sub predictor per the spec: reconstruct left-to-right by
adding the previously *reconstructed* same-channel byte back (mod 256),
with 0 for every channel of the first pixel. -/
def unfilterRow (bpp : Nat) (prev : List Nat) (i : Nat) : List Nat → List Nat
  | [] => []
  | b :: rest =>
    let channel := i % bpp
    let recon := wrapping_add b (prev.getD channel 0)
    recon :: unfilterRow bpp (prev.set channel recon) (i + 1) rest

/-- The spec's decoding direction for the whole filtered stream: strip each
row's leading filter-type tag, then apply the inverse Sub predictor to the
remaining `row_length` bytes of each row. -/
def unfilterScanlines (bpp row_length : Nat) (bytes : List Nat) : List Nat :=
  (chunksExact (1 + row_length) bytes).flatMap fun row =>
    unfilterRow bpp (List.replicate bpp 0) 0 (row.drop 1)

/-- Big-endian value of the first four bytes of a list. -/
def be32_value : List Nat → Nat
  | b0 :: b1 :: b2 :: b3 :: _ =>
    b0 % 256 * 2 ^ 24 + b1 % 256 * 2 ^ 16 + b2 % 256 * 2 ^ 8 + b3 % 256
  | _ => 0

/-- Re-parsing of one emitted chunk per the spec's wire format:
4-byte big-endian payload length, 4-byte type, payload, 4-byte CRC. -/
def parse_chunk (bytes : List Nat) : Option (List Nat × List Nat) :=
  if bytes.length < 12 then none
  else
    let len := be32_value (bytes.take 4)
    let chunk_type := (bytes.drop 4).take 4
    let body := bytes.drop 8
    if body.length < len + 4 then none
    else some (chunk_type, body.take len)

/-- The cyclic view of the `prev` channel array starting at step `i`:
entry `k` is the value that will be read `k` steps from now if no update
intervenes. -/
def rotPrev (bpp : Nat) (prev : List Nat) (i : Nat) : List Nat :=
  (List.range bpp).map fun k => prev.getD ((i + k) % bpp) 0

/-! Helper lemmas. -/

theorem ColorType.bytes_per_pixel_pos (c : ColorType) : 0 < c.bytes_per_pixel := by
  cases c <;> simp [ColorType.bytes_per_pixel]

theorem findBadIndex_eq_none_iff (m : Nat) (l : List Nat) :
    findBadIndex m l = none ↔ ∀ b ∈ l, b ≤ m := by
  induction l with
  | nil => simp [findBadIndex]
  | cons x xs ih =>
    by_cases hx : x > m
    · simp [findBadIndex, hx]
    · simp [findBadIndex, hx, ih]
      intro
      omega

theorem findBadIndex_isSome_iff (m : Nat) (l : List Nat) :
    (∃ i, findBadIndex m l = some i) ↔ ∃ b ∈ l, m < b := by
  constructor
  · intro ⟨i, hi⟩
    by_contra hall
    push_neg at hall
    have : findBadIndex m l = none := (findBadIndex_eq_none_iff m l).mpr hall
    rw [this] at hi
    cases hi
  · intro ⟨b, hb, hmb⟩
    rcases h : findBadIndex m l with _ | i
    · have := (findBadIndex_eq_none_iff m l).mp h b hb
      omega
    · exact ⟨i, rfl⟩

/-- C7: `create` succeeds exactly when both dimensions are in `[1, 32767]`;
otherwise it fails with the invalid-dimensions error. -/
theorem new_spec (width height : Nat) (color_type : ColorType) :
    ((∃ img, PngImage.new width height color_type = Except.ok img) ↔
      1 ≤ width ∧ width ≤ 32767 ∧ 1 ≤ height ∧ height ≤ 32767) ∧
    (width = 0 ∨ height = 0 ∨ 32767 < width ∨ 32767 < height →
      PngImage.new width height color_type =
        Except.error (PngError.InvalidDimensions width height)) := by
  constructor
  · constructor
    · rintro ⟨img, himg⟩
      unfold PngImage.new at himg
      split at himg
      · cases himg
      · rename_i h
        push_neg at h
        omega
    · intro h
      refine ⟨{ width := width, height := height, data := [],
                color_type := color_type, palette := none }, ?_⟩
      unfold PngImage.new
      rw [if_neg (by omega)]
  · intro h
    unfold PngImage.new
    rw [if_pos (by omega)]

/-- Witness for C7 at concrete inputs. -/
theorem new_spec_witness :
    (∃ img, PngImage.new 5 7 ColorType.Rgb = Except.ok img) ∧
    PngImage.new 0 5 ColorType.Rgb = Except.error (PngError.InvalidDimensions 0 5) :=
  ⟨(new_spec 5 7 ColorType.Rgb).1.mpr (by omega), (new_spec 0 5 ColorType.Rgb).2 (by omega)⟩

/-- C8: `set_palette` fails with the color-type error off indexed mode; in
indexed mode it fails with the invalid-palette error exactly when the byte
length is not a multiple of 3 or exceeds 768, and otherwise stores the
bytes. -/
theorem set_palette_spec (img : PngImage) (palette : List Nat) :
    (img.color_type ≠ ColorType.Indexed →
      img.set_palette palette = Except.error PngError.ColorTypeError) ∧
    (img.color_type = ColorType.Indexed →
      ((∃ msg, img.set_palette palette = Except.error (PngError.InvalidPalette msg)) ↔
        palette.length % 3 ≠ 0 ∨ 768 < palette.length) ∧
      (palette.length % 3 = 0 → palette.length ≤ 768 →
        img.set_palette palette = Except.ok { img with palette := some palette })) := by
  refine ⟨fun hne => ?_, fun hidx => ⟨?_, fun h3 h768 => ?_⟩⟩
  · unfold PngImage.set_palette
    rw [if_pos hne]
  · unfold PngImage.set_palette
    rw [if_neg (by simp [hidx])]
    by_cases h3 : palette.length % 3 = 0
    · rw [if_neg (by simp [h3])]
      by_cases hbig : palette.length > 256 * 3
      · rw [if_pos hbig]
        simp only [Except.error.injEq]
        constructor
        · intro
          right
          omega
        · intro
          exact ⟨_, rfl⟩
      · rw [if_neg hbig]
        constructor
        · rintro ⟨msg, hmsg⟩
          cases hmsg
        · intro h
          omega
    · rw [if_pos (by simp [h3])]
      constructor
      · intro
        left
        exact h3
      · intro
        exact ⟨_, rfl⟩
  · unfold PngImage.set_palette
    rw [if_neg (by simp [hidx]), if_neg (by simp [h3]), if_neg (by omega)]

/-- Witness for C8 at concrete inputs: 4 bytes fail, 771 bytes fail,
768 bytes succeed (on an indexed image), and a non-indexed image fails. -/
theorem set_palette_spec_witness :
    (∃ msg, PngImage.set_palette
        { width := 1, height := 1, data := [], color_type := ColorType.Indexed,
          palette := none } (List.replicate 4 0) =
      Except.error (PngError.InvalidPalette msg)) ∧
    (∃ msg, PngImage.set_palette
        { width := 1, height := 1, data := [], color_type := ColorType.Indexed,
          palette := none } (List.replicate 771 0) =
      Except.error (PngError.InvalidPalette msg)) ∧
    PngImage.set_palette
        { width := 1, height := 1, data := [], color_type := ColorType.Indexed,
          palette := none } (List.replicate 768 0) =
      Except.ok { width := 1, height := 1, data := [],
                  color_type := ColorType.Indexed,
                  palette := some (List.replicate 768 0) } ∧
    PngImage.set_palette
        { width := 1, height := 1, data := [], color_type := ColorType.Rgb,
          palette := none } [0, 0, 0] = Except.error PngError.ColorTypeError :=
  ⟨((set_palette_spec _ _).2 rfl).1.mpr (by simp only [List.length_replicate]; omega),
   ((set_palette_spec _ _).2 rfl).1.mpr (by simp only [List.length_replicate]; omega),
   ((set_palette_spec _ _).2 rfl).2 (by simp only [List.length_replicate])
     (by simp only [List.length_replicate]; omega),
   (set_palette_spec _ _).1 (by simp)⟩

/-- C6: `add_pixel` with the wrong component count always fails with the
component-count error; with the right count it fails with the pixel-count
error exactly when the buffer is already full, and otherwise appends the
bytes verbatim. -/
theorem add_pixel_spec (img : PngImage) (components : List Nat) :
    (components.length ≠ img.color_type.bytes_per_pixel →
      img.add_pixel components = Except.error (PngError.ComponentCountMismatch
        img.color_type.bytes_per_pixel components.length img.color_type)) ∧
    (components.length = img.color_type.bytes_per_pixel →
      (img.width * img.height ≤ img.data.length / img.color_type.bytes_per_pixel →
        img.add_pixel components = Except.error (PngError.PixelCountMismatch
          (img.width * img.height) (img.data.length / img.color_type.bytes_per_pixel + 1)
          (img.width, img.height))) ∧
      (img.data.length / img.color_type.bytes_per_pixel < img.width * img.height →
        img.add_pixel components = Except.ok { img with data := img.data ++ components })) := by
  refine ⟨fun hne => ?_, fun heq => ⟨fun hfull => ?_, fun hroom => ?_⟩⟩
  · unfold PngImage.add_pixel ColorType.validate_components
    rw [if_pos hne]
  · unfold PngImage.add_pixel ColorType.validate_components
    rw [if_neg (by simp [heq])]
    simp only
    rw [if_pos hfull]
  · unfold PngImage.add_pixel ColorType.validate_components
    rw [if_neg (by simp [heq])]
    simp only
    rw [if_neg (by omega)]

/-- Witness for C6 at concrete inputs: wrong component count on a full
buffer, pixel-count failure when full, success one pixel short of full. -/
theorem add_pixel_spec_witness :
    PngImage.add_pixel
        { width := 1, height := 1, data := [9, 9, 9], color_type := ColorType.Rgb,
          palette := none } [1, 2] =
      Except.error (PngError.ComponentCountMismatch 3 2 ColorType.Rgb) ∧
    PngImage.add_pixel
        { width := 1, height := 1, data := [9, 9, 9], color_type := ColorType.Rgb,
          palette := none } [1, 2, 3] =
      Except.error (PngError.PixelCountMismatch 1 2 (1, 1)) ∧
    PngImage.add_pixel
        { width := 2, height := 1, data := [9, 9, 9], color_type := ColorType.Rgb,
          palette := none } [1, 2, 3] =
      Except.ok { width := 2, height := 1, data := [9, 9, 9, 1, 2, 3],
                  color_type := ColorType.Rgb, palette := none } :=
  ⟨(add_pixel_spec _ _).1 (by simp [ColorType.bytes_per_pixel]),
   ((add_pixel_spec _ _).2 (by simp [ColorType.bytes_per_pixel])).1 (by simp [ColorType.bytes_per_pixel]),
   ((add_pixel_spec _ _).2 (by simp [ColorType.bytes_per_pixel])).2 (by simp [ColorType.bytes_per_pixel])⟩

/-- C1 counterexample: a reachable indexed image with a zero-length palette
and stored pixel index 0.  The number of palette entries is 0, so the claim
requires the index validation (and hence encode) to fail; but
`saturating_sub` makes `max_index = 0` and the validation succeeds. -/
theorem validate_palette_indices_empty_palette_cex :
    ((PngImage.new 1 1 ColorType.Indexed).bind fun img =>
      (img.set_palette []).bind fun img => img.add_pixel [0]) =
      Except.ok { width := 1, height := 1, data := [0],
                  color_type := ColorType.Indexed,
                  palette := some ([] : List Nat) } ∧
    PngImage.validate_palette_indices
      { width := 1, height := 1, data := [0], color_type := ColorType.Indexed,
        palette := some ([] : List Nat) } = Except.ok () ∧
    (0 : Nat) ∈ ({ width := 1, height := 1, data := [0],
                   color_type := ColorType.Indexed,
                   palette := some ([] : List Nat) } : PngImage).data ∧
    ([] : List Nat).length / 3 ≤ 0 := by
  refine ⟨rfl, rfl, by simp, by simp⟩

/-- C1 amended: palette-index validation fails with an invalid-palette-entry
error exactly when some stored index is at least `max(palette_entries, 1)`;
a zero-length palette behaves like a one-entry palette (index 0 accepted). -/
theorem validate_palette_indices_amended (img : PngImage) (palette : List Nat)
    (hp : img.palette = some palette) :
    (∃ i, img.validate_palette_indices = Except.error (PngError.InvalidPaletteEntry i)) ↔
      ∃ b ∈ img.data, max (palette.length / 3) 1 ≤ b := by
  unfold PngImage.validate_palette_indices
  rw [hp]
  simp only
  rcases h : findBadIndex (palette.length / 3 - 1) img.data with _ | i
  · have hall := (findBadIndex_eq_none_iff _ _).mp h
    constructor
    · rintro ⟨i, hi⟩
      cases hi
    · rintro ⟨b, hb, hbig⟩
      have := hall b hb
      omega
  · have hsome := (findBadIndex_isSome_iff (palette.length / 3 - 1) img.data).mp ⟨i, h⟩
    constructor
    · rintro ⟨j, hj⟩
      obtain ⟨b, hb, hbig⟩ := hsome
      exact ⟨b, hb, by omega⟩
    · intro
      exact ⟨i, rfl⟩

/-- Witness for C1's amended theorem at a concrete input: one palette entry
and stored index 2. -/
theorem validate_palette_indices_amended_witness :
    ∃ i, PngImage.validate_palette_indices
      { width := 1, height := 1, data := [2], color_type := ColorType.Indexed,
        palette := some [255, 0, 0] } =
      Except.error (PngError.InvalidPaletteEntry i) :=
  (validate_palette_indices_amended _ [255, 0, 0] rfl).mpr ⟨2, by simp, by simp⟩

/-- C9: for an indexed image whose palette is missing or whose index
validation fails, `write_to_file` returns an error with the sink exactly as
it was — nothing has been written. -/
theorem write_to_file_precondition_failure (img : PngImage)
    (compress : List Nat → Except String (List Nat)) (sink : List Nat)
    (hmode : img.color_type = ColorType.Indexed)
    (hfail : img.palette = none ∨ img.validate_palette_indices ≠ Except.ok ()) :
    ∃ e, img.write_to_file compress sink = (sink, some e) := by
  unfold PngImage.write_to_file
  rw [if_pos hmode]
  rcases hpal : img.palette with _ | palette
  · simp [hpal]
  · simp only [Option.isNone_some, Bool.false_eq_true, if_false]
    rcases hv : img.validate_palette_indices with e | u
    · exact ⟨e, rfl⟩
    · rcases hfail with h | h
      · rw [hpal] at h
        cases h
      · cases u
        exact absurd hv h

/-- Witness for C9 at a concrete input: indexed image, no palette. -/
theorem write_to_file_precondition_failure_witness :
    ∃ e, PngImage.write_to_file
      { width := 1, height := 1, data := [0], color_type := ColorType.Indexed,
        palette := none } (fun bytes => Except.ok bytes) [7, 7] = ([7, 7], some e) :=
  write_to_file_precondition_failure _ _ _ rfl (Or.inl rfl)

theorem u32_be_bytes_length (n : Nat) : (u32_be_bytes n).length = 4 := rfl

theorem be32_value_u32_be_bytes (n : Nat) (h : n < 2 ^ 32) :
    be32_value (u32_be_bytes n) = n := by
  simp only [u32_be_bytes, be32_value, List.getD]
  omega

/-- C4: the chunk framer emits the big-endian payload length, the type
verbatim, the payload verbatim, and the big-endian CRC-32 of
type ++ payload, in that order; re-parsing the emitted bytes recovers the
type and payload exactly. -/
theorem write_chunk_spec (sink chunk_type data : List Nat)
    (hct : chunk_type.length = 4) (hdata : data.length < 2 ^ 32) :
    ChunkWriter.write_chunk sink chunk_type data =
      sink ++ u32_be_bytes data.length ++ chunk_type ++ data ++
        u32_be_bytes (crc32 (chunk_type ++ data)) ∧
    parse_chunk (u32_be_bytes data.length ++ chunk_type ++ data ++
        u32_be_bytes (crc32 (chunk_type ++ data))) = some (chunk_type, data) := by
  refine ⟨by simp [ChunkWriter.write_chunk, ChunkWriter.chunk_bytes, List.append_assoc], ?_⟩
  unfold parse_chunk
  simp only [List.append_assoc]
  rw [List.take_left' (u32_be_bytes_length _), List.drop_left' (u32_be_bytes_length _),
    List.take_left' hct]
  have h8 : (8 : Nat) = 4 + 4 := rfl
  rw [h8, ← List.drop_drop, List.drop_left' (u32_be_bytes_length _), List.drop_left' hct]
  rw [be32_value_u32_be_bytes _ hdata]
  rw [if_neg (by simp [hct, u32_be_bytes_length]; omega)]
  rw [if_neg (by simp [u32_be_bytes_length])]
  rw [List.take_left' rfl]

/-- Witness for C4 at a concrete input: the IEND chunk (empty payload). -/
theorem write_chunk_spec_witness :
    ChunkWriter.write_chunk [] [73, 69, 78, 68] [] =
      [] ++ u32_be_bytes ([] : List Nat).length ++ [73, 69, 78, 68] ++ [] ++
        u32_be_bytes (crc32 ([73, 69, 78, 68] ++ [])) ∧
    parse_chunk (u32_be_bytes ([] : List Nat).length ++ [73, 69, 78, 68] ++ [] ++
        u32_be_bytes (crc32 ([73, 69, 78, 68] ++ []))) = some ([73, 69, 78, 68], []) :=
  write_chunk_spec [] [73, 69, 78, 68] [] rfl (by simp)

/-- C5: the IHDR payload is exactly 13 bytes — width (4 bytes BE), height
(4 bytes BE), bit depth 8, the mode's color format code, compression 0,
filter 0, interlace 0 — with codes Grayscale=0, Rgb=2, Indexed=3,
GrayscaleAlpha=4, Rgba=6. -/
theorem generate_ihdr_spec (img : PngImage) :
    img.generate_ihdr =
      u32_be_bytes img.width ++ u32_be_bytes img.height ++
        [8, img.color_type.png_header_code, 0, 0, 0] ∧
    img.generate_ihdr.length = 13 ∧
    ColorType.Grayscale.png_header_code = 0 ∧
    ColorType.Rgb.png_header_code = 2 ∧
    ColorType.Indexed.png_header_code = 3 ∧
    ColorType.GrayscaleAlpha.png_header_code = 4 ∧
    ColorType.Rgba.png_header_code = 6 :=
  ⟨rfl, rfl, rfl, rfl, rfl, rfl, rfl⟩

/-! Scanline filter machinery: the stateful `prev`-array walk of
`filterRowGo` equals the index-based Sub formula of the spec. -/

theorem filterRowGo_length (bpp : Nat) :
    ∀ (rest prev : List Nat) (i : Nat),
      (filterRowGo bpp prev i rest).length = rest.length
  | [], _, _ => rfl
  | _ :: rest, prev, i =>
    congrArg (· + 1) (filterRowGo_length bpp rest (prev.set (i % bpp) _) (i + 1))

theorem getD_replicate_zero (m n : Nat) :
    (List.replicate m (0 : Nat)).getD n 0 = 0 := by
  rcases Nat.lt_or_ge n m with h | h
  · rw [List.getD_eq_getElem _ _ (by simpa using h)]
    simp
  · rw [List.getD_eq_default _ _ (by simpa using h)]

theorem rotPrev_length (bpp : Nat) (prev : List Nat) (i : Nat) :
    (rotPrev bpp prev i).length = bpp := by
  simp [rotPrev]

theorem rotPrev_replicate_zero (bpp i : Nat) :
    rotPrev bpp (List.replicate bpp 0) i = List.replicate bpp 0 := by
  apply List.ext_getElem
  · simp [rotPrev]
  · intro n h1 h2
    simp [rotPrev, getD_replicate_zero]

theorem rotPrev_eq_cons (bpp : Nat) (hbpp : 0 < bpp) (prev : List Nat) (i : Nat) :
    rotPrev bpp prev i =
      prev.getD (i % bpp) 0 :: (rotPrev bpp prev i).drop 1 := by
  rcases bpp with _ | m
  · omega
  · unfold rotPrev
    rw [List.range_succ_eq_map]
    simp only [List.map_cons, List.drop_one, List.tail_cons, Nat.add_zero]

theorem rotPrev_succ_set (bpp : Nat) (hbpp : 0 < bpp) (prev : List Nat)
    (hlen : prev.length = bpp) (i b : Nat) :
    rotPrev bpp (prev.set (i % bpp) b) (i + 1) =
      (rotPrev bpp prev i).drop 1 ++ [b] := by
  apply List.ext_getElem
  · simp [rotPrev_length]
    omega
  · intro k h1 h2
    rw [rotPrev_length] at h1
    have hk : k < bpp := h1
    simp only [rotPrev, List.getElem_map, List.getElem_range]
    rw [List.getElem_append]
    rcases Nat.lt_or_ge k (bpp - 1) with hsmall | hbig
    · rw [dif_pos (by simp [rotPrev_length]; omega)]
      simp only [List.getElem_drop, rotPrev, List.getElem_map, List.getElem_range]
      have hne : (i + 1 + k) % bpp ≠ i % bpp := by
        intro hEq
        have hmod : (i + (1 + k)) % bpp = (i + 0) % bpp := by
          rw [Nat.add_zero, show i + (1 + k) = i + 1 + k from by omega, hEq]
        have h1k : (1 + k) % bpp = 0 % bpp := Nat.ModEq.add_left_cancel' i hmod
        rw [Nat.mod_eq_of_lt (by omega), Nat.zero_mod] at h1k
        omega
      have hlt : (i + 1 + k) % bpp < prev.length := by
        rw [hlen]; exact Nat.mod_lt _ hbpp
      have hidx : i + (1 + k) = i + 1 + k := by omega
      rw [List.getD_eq_getElem _ _ (by simpa using hlt), hidx,
        List.getD_eq_getElem _ _ hlt, List.getElem_set,
        if_neg (fun hEq => hne hEq.symm)]
    · rw [dif_neg (by simp [rotPrev_length]; omega)]
      have hkeq : i + 1 + k = i + bpp := by omega
      rw [hkeq, Nat.add_mod_right]
      have hlt : i % bpp < prev.length := by
        rw [hlen]; exact Nat.mod_lt _ hbpp
      rw [List.getD_eq_getElem _ _ (by simpa using hlt), List.getElem_set, if_pos rfl]
      simp [rotPrev_length]

theorem filterRowGo_eq_zipWith (bpp : Nat) (hbpp : 0 < bpp) :
    ∀ (rest prev : List Nat) (i : Nat), prev.length = bpp →
      filterRowGo bpp prev i rest =
        List.zipWith wrapping_sub rest (rotPrev bpp prev i ++ rest) := by
  intro rest
  induction rest with
  | nil => intro prev i _; simp [filterRowGo]
  | cons b rest ih =>
    intro prev i hlen
    rw [rotPrev_eq_cons bpp hbpp prev i]
    simp only [List.cons_append, List.zipWith_cons_cons, filterRowGo]
    congr 1
    rw [ih (prev.set (i % bpp) b) (i + 1) (by simp [hlen])]
    rw [rotPrev_succ_set bpp hbpp prev hlen i b]
    rw [List.append_assoc, List.singleton_append]

theorem filterRowGo_eq_subRowSpec (bpp : Nat) (hbpp : 0 < bpp) (row : List Nat) :
    filterRowGo bpp (List.replicate bpp 0) 0 row = subRowSpec bpp row := by
  rw [filterRowGo_eq_zipWith bpp hbpp row _ 0 (List.length_replicate _ _)]
  rw [rotPrev_replicate_zero]
  rfl

/-! `chunks_exact` lemmas. -/

theorem filter_scanlines_eq (img : PngImage) :
    img.filter_scanlines =
      (chunksExact (img.width * img.color_type.bytes_per_pixel) img.data).flatMap
        (fun row => 1 :: filterRowGo img.color_type.bytes_per_pixel
          (List.replicate img.color_type.bytes_per_pixel 0) 0 row) := rfl

theorem chunksExact_eq_nil (n : Nat) (l : List Nat) (h : l.length < n) :
    chunksExact n l = [] := by
  rw [chunksExact]
  rw [dif_neg (by omega)]

theorem chunksExact_eq_cons (n : Nat) (l : List Nat) (h0 : 0 < n)
    (hle : n ≤ l.length) :
    chunksExact n l = l.take n :: chunksExact n (l.drop n) := by
  rw [chunksExact]
  rw [dif_pos ⟨h0, hle⟩]

theorem chunksExact_length (n : Nat) (h0 : 0 < n) (l : List Nat) :
    (chunksExact n l).length = l.length / n := by
  rcases Nat.lt_or_ge l.length n with h | h
  · rw [chunksExact_eq_nil n l h, Nat.div_eq, if_neg (by omega)]
    rfl
  · rw [chunksExact_eq_cons n l h0 h]
    have ih := chunksExact_length n h0 (l.drop n)
    simp only [List.length_cons, ih, List.length_drop]
    conv_rhs => rw [Nat.div_eq]
    rw [if_pos ⟨h0, h⟩]
termination_by l.length
decreasing_by simp only [List.length_drop]; omega

theorem chunksExact_append (n : Nat) (a b : List Nat) (ha : a.length = n)
    (h0 : 0 < n) :
    chunksExact n (a ++ b) = a :: chunksExact n b := by
  rw [chunksExact_eq_cons n _ h0 (by simp [ha])]
  rw [List.take_left' ha, List.drop_left' ha]

theorem chunksExact_eq_map_range (n : Nat) (h0 : 0 < n) (l : List Nat) :
    chunksExact n l = (List.range (l.length / n)).map fun r => rowAt l n r := by
  rcases Nat.lt_or_ge l.length n with h | h
  · rw [chunksExact_eq_nil n l h, Nat.div_eq_of_lt h]
    rfl
  · rw [chunksExact_eq_cons n l h0 h]
    rw [chunksExact_eq_map_range n h0 (l.drop n)]
    conv_rhs => rw [Nat.div_eq, if_pos ⟨h0, h⟩]
    rw [List.range_succ_eq_map]
    simp only [List.map_cons, List.map_map, List.length_drop]
    congr 1
    · simp [rowAt]
    · apply List.map_congr_left
      intro r _
      simp only [Function.comp, rowAt, Nat.succ_eq_add_one]
      rw [List.drop_drop]
      congr 2
      rw [Nat.succ_mul]
      omega
termination_by l.length
decreasing_by simp only [List.length_drop]; omega

theorem taggedRows_length (bpp n : Nat) (h0 : 0 < n) (l : List Nat) :
    ((chunksExact n l).flatMap fun row =>
      1 :: filterRowGo bpp (List.replicate bpp 0) 0 row).length =
      l.length / n * (1 + n) := by
  rcases Nat.lt_or_ge l.length n with h | h
  · rw [chunksExact_eq_nil n l h, Nat.div_eq_of_lt h]
    simp
  · rw [chunksExact_eq_cons n l h0 h, List.flatMap_cons]
    simp only [List.length_append, List.length_cons, filterRowGo_length]
    rw [taggedRows_length bpp n h0 (l.drop n)]
    simp only [List.length_drop, List.length_take]
    conv_rhs => rw [Nat.div_eq, if_pos ⟨h0, h⟩]
    have hmin : min n l.length = n := by omega
    rw [hmin]
    ring
termination_by l.length
decreasing_by simp only [List.length_drop]; omega

/-- C2: for a buffer holding exactly `width*height` pixels, the scanline
filter replaces each row of `width*bytes_per_pixel` bytes by a leading tag
byte 1 followed by the Sub-predicted row (each byte minus the same-channel
byte of the previous pixel, mod 256, 0 for the first pixel); rows are
independent and the total output length is `height*(1+width*bytes_per_pixel)`. -/
theorem filter_scanlines_spec (img : PngImage)
    (hw : 1 ≤ img.width)
    (hlen : img.data.length =
      img.width * img.height * img.color_type.bytes_per_pixel) :
    img.filter_scanlines =
      (List.range img.height).flatMap (fun r =>
        1 :: subRowSpec img.color_type.bytes_per_pixel
          (rowAt img.data (img.width * img.color_type.bytes_per_pixel) r)) ∧
    img.filter_scanlines.length =
      img.height * (1 + img.width * img.color_type.bytes_per_pixel) := by
  have hbpp := ColorType.bytes_per_pixel_pos img.color_type
  have h0 : 0 < img.width * img.color_type.bytes_per_pixel :=
    Nat.mul_pos (by omega) hbpp
  have hdiv : img.data.length / (img.width * img.color_type.bytes_per_pixel) =
      img.height := by
    rw [hlen, show img.width * img.height * img.color_type.bytes_per_pixel =
      img.height * (img.width * img.color_type.bytes_per_pixel) from by ring]
    exact Nat.mul_div_cancel _ h0
  constructor
  · rw [filter_scanlines_eq]
    rw [chunksExact_eq_map_range _ h0, hdiv, List.flatMap_map]
    congr 1
    funext r
    rw [filterRowGo_eq_subRowSpec _ hbpp]
  · rw [filter_scanlines_eq]
    rw [taggedRows_length _ _ h0, hdiv]

/-- Witness for C2 at a concrete input: the spec's end-to-end scenario A
image (2×1 RGB, pixels `[255,0,0]` and `[0,255,0]`). -/
theorem filter_scanlines_spec_witness :
    PngImage.filter_scanlines
        { width := 2, height := 1, data := [255, 0, 0, 0, 255, 0],
          color_type := ColorType.Rgb, palette := none } =
      (List.range 1).flatMap (fun r =>
        1 :: subRowSpec 3 (rowAt [255, 0, 0, 0, 255, 0] 6 r)) ∧
    (PngImage.filter_scanlines
        { width := 2, height := 1, data := [255, 0, 0, 0, 255, 0],
          color_type := ColorType.Rgb, palette := none }).length = 1 * (1 + 2 * 3) :=
  filter_scanlines_spec
    { width := 2, height := 1, data := [255, 0, 0, 0, 255, 0],
      color_type := ColorType.Rgb, palette := none } (by decide) (by decide)

/-! Round-trip machinery for C3. -/

theorem wrapping_add_wrapping_sub (b p : Nat) (hb : b < 256) :
    wrapping_add (wrapping_sub b p) p = b := by
  unfold wrapping_add wrapping_sub
  omega

theorem unfilterRow_filterRowGo (bpp : Nat) :
    ∀ (rest prev : List Nat) (i : Nat), (∀ b ∈ rest, b < 256) →
      unfilterRow bpp prev i (filterRowGo bpp prev i rest) = rest := by
  intro rest
  induction rest with
  | nil => intro prev i _; rfl
  | cons b rest ih =>
    intro prev i h
    simp only [filterRowGo, unfilterRow]
    rw [wrapping_add_wrapping_sub b _ (h b (by simp))]
    congr 1
    exact ih (prev.set (i % bpp) b) (i + 1) fun x hx => h x (by simp [hx])

theorem unfilter_filter (bpp row_length : Nat) (h0 : 0 < row_length)
    (l : List Nat) (hdvd : row_length ∣ l.length)
    (hbytes : ∀ b ∈ l, b < 256) :
    unfilterScanlines bpp row_length
      ((chunksExact row_length l).flatMap fun row =>
        1 :: filterRowGo bpp (List.replicate bpp 0) 0 row) = l := by
  rcases Nat.lt_or_ge l.length row_length with h | h
  · have hzero : l.length = 0 := by
      rcases hdvd with ⟨k, hk⟩
      rcases k with _ | k
      · omega
      · exfalso
        have hge : row_length ≤ row_length * (k + 1) :=
          Nat.le_mul_of_pos_right _ (by omega)
        omega
    rw [List.eq_nil_of_length_eq_zero hzero]
    rw [chunksExact_eq_nil _ _ (by simp; omega)]
    have hnil : ([] : List (List Nat)).flatMap
        (fun row => 1 :: filterRowGo bpp (List.replicate bpp 0) 0 row) = [] := rfl
    rw [hnil]
    unfold unfilterScanlines
    rw [chunksExact_eq_nil _ _ (by simp)]
    rfl
  · rw [chunksExact_eq_cons _ _ h0 h, List.flatMap_cons]
    unfold unfilterScanlines
    have hfr_len :
        (1 :: filterRowGo bpp (List.replicate bpp 0) 0 (l.take row_length)).length =
          1 + row_length := by
      simp [filterRowGo_length, List.length_take]
      omega
    rw [chunksExact_append _ _ _ hfr_len (by omega), List.flatMap_cons,
      List.drop_one, List.tail_cons]
    rw [unfilterRow_filterRowGo bpp _ _ _
      (fun b hb => hbytes b (List.mem_of_mem_take hb))]
    have ih := unfilter_filter bpp row_length h0 (l.drop row_length)
      (by rw [List.length_drop]; exact Nat.dvd_sub' hdvd dvd_rfl)
      (fun b hb => hbytes b (List.mem_of_mem_drop hb))
    unfold unfilterScanlines at ih
    rw [ih]
    exact List.take_append_drop row_length l
termination_by l.length
decreasing_by simp only [List.length_drop]; omega

/-- C3: applying the inverse Sub predictor (strip each row's tag byte, add
back the previous pixel's same-channel byte mod 256, left-to-right) to the
scanline filter's output reconstructs the pixel buffer byte-for-byte, for
any dimensions, mode and content filling whole rows. -/
theorem filter_unfilter_roundtrip (img : PngImage)
    (hw : 1 ≤ img.width)
    (hrows : (img.width * img.color_type.bytes_per_pixel) ∣ img.data.length)
    (hbytes : ∀ b ∈ img.data, b < 256) :
    unfilterScanlines img.color_type.bytes_per_pixel
      (img.width * img.color_type.bytes_per_pixel) img.filter_scanlines =
      img.data := by
  have hbpp := ColorType.bytes_per_pixel_pos img.color_type
  rw [filter_scanlines_eq]
  exact unfilter_filter _ _ (Nat.mul_pos (by omega) hbpp) _ hrows hbytes

/-- Witness for C3 at a concrete input: a 2×2 grayscale-alpha image. -/
theorem filter_unfilter_roundtrip_witness :
    unfilterScanlines 2 4
      (PngImage.filter_scanlines
        { width := 2, height := 2, data := [10, 200, 30, 40, 255, 0, 7, 130],
          color_type := ColorType.GrayscaleAlpha, palette := none }) =
      [10, 200, 30, 40, 255, 0, 7, 130] :=
  filter_unfilter_roundtrip
    { width := 2, height := 2, data := [10, 200, 30, 40, 255, 0, 7, 130],
      color_type := ColorType.GrayscaleAlpha, palette := none }
    (by decide) (by decide) (by decide)

theorem chunksExact_take_truncate (n : Nat) (h0 : 0 < n) (l : List Nat) :
    chunksExact n (l.take (l.length / n * n)) = chunksExact n l := by
  rcases Nat.lt_or_ge l.length n with h | h
  · rw [Nat.div_eq_of_lt h]
    simp only [Nat.zero_mul, List.take_zero]
    rw [chunksExact_eq_nil _ _ (by simp; omega), chunksExact_eq_nil _ _ h]
  · have hq : l.length / n = (l.length - n) / n + 1 := by
      conv_lhs => rw [Nat.div_eq]
      rw [if_pos ⟨h0, h⟩]
    rw [chunksExact_eq_cons n l h0 h]
    rw [hq, show ((l.length - n) / n + 1) * n = n + (l.length - n) / n * n from by ring]
    rw [List.take_add]
    have hlen_take : (l.take n).length = n := by
      simp
      omega
    rw [chunksExact_append n _ _ hlen_take h0]
    congr 1
    have ih := chunksExact_take_truncate n h0 (l.drop n)
    rw [List.length_drop] at ih
    exact ih
termination_by l.length
decreasing_by simp only [List.length_drop]; omega

/-- C10 (implicit): encode never checks that the buffer is full.  For a
non-indexed image with fewer than `width*height` pixels stored (and no
palette, as non-indexed images built through the API have), `write_to_file`
still succeeds and emits signature ++ IHDR ++ IDAT ++ IEND; the filter
output covers only `len/row_length` (floor) complete rows, trailing bytes
being dropped (truncating the buffer to whole rows leaves the output
unchanged); and the IHDR still declares the full width and height. -/
theorem write_to_file_partial_rows (img : PngImage)
    (compress : List Nat → Except String (List Nat)) (sink compressed : List Nat)
    (hmode : img.color_type ≠ ColorType.Indexed)
    (hpal : img.palette = none)
    (hw : 1 ≤ img.width)
    (_hshort : img.data.length <
      img.width * img.height * img.color_type.bytes_per_pixel)
    (hc : compress img.filter_scanlines = Except.ok compressed) :
    img.write_to_file compress sink =
      (sink ++ png_signature ++
        ChunkWriter.chunk_bytes [73, 72, 68, 82] img.generate_ihdr ++
        ChunkWriter.chunk_bytes [73, 68, 65, 84] compressed ++
        ChunkWriter.chunk_bytes [73, 69, 78, 68] [], none) ∧
    img.filter_scanlines.length =
      img.data.length / (img.width * img.color_type.bytes_per_pixel) *
        (1 + img.width * img.color_type.bytes_per_pixel) ∧
    PngImage.filter_scanlines
      { img with
        data := img.data.take (img.data.length /
                  (img.width * img.color_type.bytes_per_pixel) *
                  (img.width * img.color_type.bytes_per_pixel)) } =
      img.filter_scanlines ∧
    img.generate_ihdr = u32_be_bytes img.width ++ u32_be_bytes img.height ++
      [8, img.color_type.png_header_code, 0, 0, 0] := by
  have hbpp := ColorType.bytes_per_pixel_pos img.color_type
  have h0 : 0 < img.width * img.color_type.bytes_per_pixel :=
    Nat.mul_pos (by omega) hbpp
  refine ⟨?_, ?_, ?_, rfl⟩
  · unfold PngImage.write_to_file
    rw [if_neg hmode]
    unfold PngImage.write_body
    simp only [hpal, hc]
    simp [ChunkWriter.write_chunk, List.append_assoc]
  · rw [filter_scanlines_eq]
    rw [taggedRows_length _ _ h0]
  · rw [filter_scanlines_eq, filter_scanlines_eq]
    dsimp only
    exact congrArg
      (fun c : List (List Nat) => c.flatMap fun row =>
        1 :: filterRowGo img.color_type.bytes_per_pixel
          (List.replicate img.color_type.bytes_per_pixel 0) 0 row)
      (chunksExact_take_truncate _ h0 img.data)

/-- Witness for C10 at a concrete input: a 2×2 grayscale image holding only
2 of its 4 pixels, with an identity stand-in for the compressor. -/
theorem write_to_file_partial_rows_witness :
    PngImage.write_to_file
        { width := 2, height := 2, data := [5, 6], color_type := ColorType.Grayscale,
          palette := none } (fun bytes => Except.ok bytes) [] =
      ([] ++ png_signature ++
        ChunkWriter.chunk_bytes [73, 72, 68, 82]
          (PngImage.generate_ihdr
            { width := 2, height := 2, data := [5, 6],
              color_type := ColorType.Grayscale, palette := none }) ++
        ChunkWriter.chunk_bytes [73, 68, 65, 84]
          (PngImage.filter_scanlines
            { width := 2, height := 2, data := [5, 6],
              color_type := ColorType.Grayscale, palette := none }) ++
        ChunkWriter.chunk_bytes [73, 69, 78, 68] [], none) ∧
    (PngImage.filter_scanlines
        { width := 2, height := 2, data := [5, 6], color_type := ColorType.Grayscale,
          palette := none }).length = 2 / 2 * (1 + 2) ∧
    PngImage.filter_scanlines
        { width := 2, height := 2, data := List.take (2 / 2 * 2) [5, 6],
          color_type := ColorType.Grayscale, palette := none } =
      PngImage.filter_scanlines
        { width := 2, height := 2, data := [5, 6], color_type := ColorType.Grayscale,
          palette := none } ∧
    PngImage.generate_ihdr
        { width := 2, height := 2, data := [5, 6], color_type := ColorType.Grayscale,
          palette := none } =
      u32_be_bytes 2 ++ u32_be_bytes 2 ++ [8, ColorType.Grayscale.png_header_code, 0, 0, 0] :=
  write_to_file_partial_rows
    { width := 2, height := 2, data := [5, 6], color_type := ColorType.Grayscale,
      palette := none } (fun bytes => Except.ok bytes) [] _
    (by decide) rfl (by decide) (by decide) rfl

end RustPng
